import Mathlib

/-!
Verification of `plugins/inventory/tfstate_inventory.py` (ansible-collection-tfstate).

The Python module is shallowly embedded: JSON-like data is the inductive
`Value`, Python exceptions are the `PyErr` error type of `Except`, and each
source function is translated to a Lean definition of the same name (where
Lean allows it).  Python `dict` values are modelled as insertion-ordered
association lists, matching CPython's ordered dictionaries.
-/

namespace Tfstate

/-- A decoded JSON value, as produced by `json.loads` and handed to the
inventory engine. -/
inductive Value where
  | null
  | bool (b : Bool)
  | num (n : Int)
  | str (s : String)
  | list (xs : List Value)
  | obj (fields : List (String × Value))
deriving Repr

/-- Python `v == "s"` against a string literal: only a string compares
equal; values of any other type compare unequal, never raising.  The
source compares values only against string literals. -/
def Value.eqStr (v : Value) (s : String) : Bool :=
  match v with
  | .str t => t = s
  | _ => false

/-- Python exceptions that the module's control flow distinguishes.
`typeError` also stands for `AttributeError` style failures on
wrongly-typed values: the source never catches either, so they are
indistinguishable to the embedded control flow. -/
inductive PyErr where
  | keyError
  | indexError
  | typeError
deriving DecidableEq, Repr

/-- Python truthiness (`bool(v)`) for a decoded JSON value. -/
def pyTruthy : Value → Bool
  | .null => false
  | .bool b => b
  | .num n => n != 0
  | .str s => !s.isEmpty
  | .list xs => !xs.isEmpty
  | .obj fs => !fs.isEmpty

/-- Truthiness of a Python variable that is either `None` or a value. -/
def optTruthy : Option Value → Bool
  | none => false
  | some v => pyTruthy v

/-- First binding of a key in an insertion-ordered dict. -/
def alistGet (fs : List (String × Value)) (k : String) : Option Value :=
  match fs with
  | [] => none
  | (k1, v) :: rest => if k1 = k then some v else alistGet rest k

/-- `d[k] = v` on an insertion-ordered dict: an existing key keeps its
position, a new key is appended. -/
def alistSet (fs : List (String × Value)) (k : String) (v : Value) :
    List (String × Value) :=
  if fs.any (fun p => p.1 = k) then
    fs.map (fun p => if p.1 = k then (k, v) else p)
  else
    fs ++ [(k, v)]

/-- Python subscription `v[k]` with a string key. -/
def pyGetItem (v : Value) (k : String) : Except PyErr Value :=
  match v with
  | .obj fs =>
      match alistGet fs k with
      | some x => .ok x
      | none => .error .keyError
  | _ => .error .typeError

/-- Python `v.get(k, default)`; only dicts have `.get`. -/
def pyDictGet (v : Value) (k : String) (dflt : Value) : Except PyErr Value :=
  match v with
  | .obj fs => .ok ((alistGet fs k).getD dflt)
  | _ => .error .typeError

/-- Python subscription `v[i]` with a non-negative integer index.  A
dict subscripted with an integer performs a key lookup; JSON objects have
only string keys, so the lookup always raises `KeyError`.  Out-of-range
list or string indices raise `IndexError`; non-subscriptable values raise
`TypeError`. -/
def pyIndex (v : Value) (i : Nat) : Except PyErr Value :=
  match v with
  | .list xs =>
      match xs.get? i with
      | some x => .ok x
      | none => .error .indexError
  | .str s =>
      match s.data.get? i with
      | some c => .ok (.str c.toString)
      | none => .error .indexError
  | .obj _ => .error .keyError
  | _ => .error .typeError

/-- Python iteration `for x in v`: lists yield elements, strings yield
one-character strings, dicts yield their keys; other values raise. -/
def pyIterList (v : Value) : Except PyErr (List Value) :=
  match v with
  | .list xs => .ok xs
  | .str s => .ok (s.data.map (fun c => .str c.toString))
  | .obj fs => .ok (fs.map (fun p => .str p.1))
  | _ => .error .typeError

/-- Does `hay` start with `needle`? -/
def leadsWith : List Char → List Char → Bool
  | [], _ => true
  | _ :: _, [] => false
  | n :: ns, h :: hs => n = h && leadsWith ns hs

/-- Substring containment, the semantics of Python `needle in hay` on
strings. -/
def substrOf (needle hay : List Char) : Bool :=
  match hay with
  | [] => needle.isEmpty
  | _ :: hs => leadsWith needle hay || substrOf needle hs

/-- Python `v in s` where `s` is a string: a substring test that raises
`TypeError` when `v` is not itself a string. -/
def pyInString (v : Value) (s : String) : Except PyErr Bool :=
  match v with
  | .str t => .ok (substrOf t.data s.data)
  | _ => .error .typeError

/-! ## NameDeriver: `sanitize_group_name` and `get_host_group_name` -/

/-- The ASCII fragment of the regex class `\w`. -/
def wordChar (c : Char) : Bool := c.isAlphanum || c = '_'

/-- `sub(r'[^\w]', '_', group_name)`: every non-word character becomes an
underscore.  Each match of the pattern is a single character, so the
substitution is a per-character map. -/
def sanitize_group_name (group_name : String) : String :=
  String.mk (group_name.data.map (fun c => if wordChar c then c else '_'))

/-- The regex class `\d`.  Python matches any Unicode decimal digit
(category Nd); this embedding models the ASCII fragment `0-9`, which is
exact on ASCII hostnames.  Theorems below about non-digit characters
restrict themselves to ASCII (`c.val < 128`), where the fragment agrees
with Python, and never assert anything about non-ASCII digits. -/
def pyDigit (c : Char) : Bool := c.isDigit

/-- Removal of the match of `(?:\-\d*)?$` at one anchor position: the
pattern only matches a suffix consisting of a dash followed by digits
running to the anchor (or an empty suffix).  A dash is such a match start
only if everything after it up to the anchor is a digit, so at most one
dash qualifies (the last one) and the leftmost non-empty match removes
exactly that dash and the maximal trailing digit run; otherwise only
empty matches exist and the string is unchanged. -/
def stripCore (s : List Char) : List Char :=
  match s.reverse.dropWhile pyDigit with
  | '-' :: rest => rest.reverse
  | _ => s

/-- The effect of `sub(r'(?:\-\d*)?$', '', hostname)`.  Without
`re.MULTILINE`, `$` matches at the end of the string and also just before
a newline that ends the string.  A non-empty match (`-` then digits)
cannot contain that final newline, so when the string ends with `'\n'`
the substitution acts on the part before it and the newline survives;
otherwise it acts at the end of the string.  `stripCore` performs the
removal at the chosen anchor. -/
def stripDashDigits (s : List Char) : List Char :=
  match s.reverse with
  | '\n' :: rest => stripCore rest.reverse ++ ['\n']
  | _ => stripCore s

/-- `get_host_group_name(hostname, postfix=None)`.  The `if postfix:` guard
is Python truthiness, so an empty-string value is not appended. -/
def get_host_group_name (hostname : String) (pf : Option String) : String :=
  let group_name := String.mk (stripDashDigits hostname.data)
  let group_name :=
    match pf with
    | some p => if p.isEmpty then group_name else group_name ++ p
    | none => group_name
  sanitize_group_name group_name

/-- The stripping rule exactly as claim C4 words it: remove a trailing
non-empty run of digits, together with a single dash immediately before it
when present.  Used only to compare the claim against the source. -/
def claimStripDigits (s : List Char) : List Char :=
  let r := s.reverse
  if (r.takeWhile Char.isDigit).isEmpty then s
  else
    match r.dropWhile Char.isDigit with
    | '-' :: rest => rest.reverse
    | rest => rest.reverse

/-- Group naming as claim C4 words it (spec wording, not the source). -/
def claim_group_name (hostname : String) (pf : Option String) : String :=
  let group_name := String.mk (claimStripDigits hostname.data)
  let group_name :=
    match pf with
    | some p => if p.isEmpty then group_name else group_name ++ p
    | none => group_name
  sanitize_group_name group_name

/-! ## PatternCompiler: `glob_to_regex`

The Python function builds a regex *string*: per `/`-separated part it
first rejects `**` fused with other characters, then escapes
`\ . , ^ $ + ? { }`, then turns a bare `**` part into `[\w\s\-\.\/]*` and
each remaining `*` into `[\w\s\-\.]*`; parts are rejoined with `\/` and the
whole is anchored with `^`/`$` (a full-string match).  We embed the
resulting compiled pattern as a sequence of `GItem`s: each escaped or
ordinary character denotes itself, each wildcard denotes a character-class
star.  The regex metacharacters `( ) [ ] |` are left unescaped by the
source, so the produced regex does *not* treat them literally: `(`/`)`
become grouping syntax — zero-width in the regexes this translation
emits, since every quantifier character is escaped or expanded into a
class, so a group in the concatenation matches exactly its body — and are
embedded as the zero-width `groupMark`; unbalanced parentheses, `[`, `]`
and `|` make `re.compile` itself fail or introduce alternation and are
outside the modelled fragment — no theorem below quantifies over patterns
containing them (`validComponent` keeps all five characters out of
literal segments). -/

/-- One element of a compiled pattern: a literal character, the
single-star class `[\w\s\-\.]*`, the double-star class `[\w\s\-\.\/]*`,
or a zero-width group parenthesis. -/
inductive GItem where
  | lit (c : Char)
  | starInner
  | starAcross
  | groupMark
deriving DecidableEq, Repr

/-- ASCII fragment of the regex class `\s`. -/
def spaceChar (c : Char) : Bool :=
  c = ' ' || c = '\t' || c = '\n' || c = '\r' || c = '\x0b' || c = '\x0c'

/-- Characters matched by the single-star class `[\w\s\-\.]`. -/
def innerChar (c : Char) : Bool :=
  wordChar c || spaceChar c || c = '-' || c = '.'

/-- Characters matched by the double-star class `[\w\s\-\.\/]`. -/
def acrossChar (c : Char) : Bool :=
  innerChar c || c = '/'

/-- `cls*` followed by a continuation `k`: the star consumes any run of
class characters, with full backtracking. -/
def matchStar (cls : Char → Bool) (k : List Char → Bool) : List Char → Bool
  | [] => k []
  | c :: cs => k (c :: cs) || (cls c && matchStar cls k cs)

/-- Anchored matching of a compiled pattern against a whole string, the
semantics of `re.compile('^...$').match(candidate)`. -/
def matchItems : List GItem → List Char → Bool
  | [], s => s.isEmpty
  | .lit c :: items, s =>
      match s with
      | [] => false
      | x :: xs => x = c && matchItems items xs
  | .starInner :: items, s => matchStar innerChar (fun t => matchItems items t) s
  | .starAcross :: items, s => matchStar acrossChar (fun t => matchItems items t) s
  | .groupMark :: items, s => matchItems items s

/-- Does the part contain two adjacent stars, i.e. Python `'**' in part`? -/
def containsDoubleStar : List Char → Bool
  | '*' :: '*' :: _ => true
  | _ :: rest => containsDoubleStar rest
  | [] => false

/-- The only error `glob_to_regex` raises itself: the
`AnsibleParserError` for a fused `**`. -/
inductive GlobError where
  | invalidDoubleStar
deriving DecidableEq, Repr

/-- Python `glob.split('/')`. -/
def splitSep : List Char → List (List Char)
  | [] => [[]]
  | '/' :: rest => [] :: splitSep rest
  | c :: rest =>
      match splitSep rest with
      | p :: ps => (c :: p) :: ps
      | [] => [[c]]

/-- The reading of one translated character in the produced regex: `*`
became the inner-star class; `(` and `)` pass through unescaped as
grouping syntax (zero-width, see the section comment); every other
character — escaped or ordinary — denotes itself. -/
def charItem (c : Char) : GItem :=
  if c = '*' then .starInner
  else if c = '(' ∨ c = ')' then .groupMark
  else .lit c

/-- Translation of one path component, after the fused-`**` check: a bare
`**` becomes the across-separator star; otherwise each character is read
by `charItem`. -/
def partItems (part : List Char) : List GItem :=
  if part = ['*', '*'] then [.starAcross]
  else part.map charItem

/-- The per-part body of the `for part in glob_parts` loop: raise on a
fused `**`, otherwise emit the part's compiled items. -/
def partToItems (part : List Char) : Except GlobError (List GItem) :=
  if containsDoubleStar part ∧ part ≠ ['*', '*'] then .error .invalidDoubleStar
  else .ok (partItems part)

/-- The whole loop: parts are compiled left to right and the first invalid
part raises. -/
def compileParts : List (List Char) → Except GlobError (List (List GItem))
  | [] => .ok []
  | p :: ps => do
      let i ← partToItems p
      let rest ← compileParts ps
      .ok (i :: rest)

/-- `'sep'.join(xs)`. -/
def joinWith (sep : List α) : List (List α) → List α
  | [] => []
  | [x] => x
  | x :: xs => x ++ sep ++ joinWith sep xs

/-- `glob_to_regex(glob)`: split on `/`, compile each part, rejoin with the
escaped separator and anchor both ends (anchoring is implicit in
`matchItems`, which matches the whole candidate). -/
def glob_to_regex (glob : String) : Except GlobError (List GItem) := do
  let parts ← compileParts (splitSep glob.data)
  .ok (joinWith [GItem.lit '/'] parts)

/-- Characters that the translation maps to a self-matching literal:
everything except the separator, the wildcard star, and the five regex
metacharacters the source leaves unescaped. -/
def litOk (c : Char) : Bool :=
  !((['(', ')', '[', ']', '|', '*', '/'] : List Char).contains c)

/-- One component of the accepted grammar: a bare `**`, or a literal
segment possibly containing single `*` wildcards (and hence no two
adjacent stars). -/
def validComponent (part : List Char) : Bool :=
  part = ['*', '*'] ||
    (!containsDoubleStar part && part.all (fun c => litOk c || c = '*'))

/-- A pattern conforming to the grammar of the spec. -/
def validPattern (glob : String) : Bool :=
  (splitSep glob.data).all validComponent

/-- Replace each wildcard of a component by the minimal non-empty literal
`a` (a word character, allowed in both star classes). -/
def instComponent (part : List Char) : List Char :=
  if part = ['*', '*'] then ['a']
  else part.map (fun c => if c = '*' then 'a' else c)

/-- The literal path obtained from a pattern by instantiating every
wildcard minimally. -/
def instantiate (glob : String) : List Char :=
  joinWith ['/'] ((splitSep glob.data).map instComponent)

/-! ## ResourceExtractor: `TFStateInventory` -/

/-- The `TFStateHost` dataclass.  `name` is whatever JSON value the
provider parser found; the two addresses default to `None`. -/
structure TFStateHost where
  name : Value
  ip_address : Option Value := none
  nat_ip_address : Option Value := none
deriving Repr

/-- The dmacvicar/libvirt provider string of `RESOURCE_PROVIDERS`. -/
def LV_PROVIDER : String := "provider[\x22registry.terraform.io/dmacvicar/libvirt\x22]"

/-- The yandex-cloud/yandex provider string of `RESOURCE_PROVIDERS`. -/
def YC_PROVIDER : String := "provider[\x22registry.terraform.io/yandex-cloud/yandex\x22]"

/-- `IP_ADDRESS_KEYS: set = ('network_id')` in `_parse_lv_host`.  The
parenthesised expression is the plain *string* `'network_id'` (no comma),
so `for key in IP_ADDRESS_KEYS` iterates over its ten characters; each
iteration looks up a one-character key. -/
def LV_IP_ADDRESS_KEYS : List String :=
  ["n", "e", "t", "w", "o", "r", "k", "_", "i", "d"]

/-- `NAT_IP_ADDRESS_KEYS` in `_parse_lv_host` (a genuine tuple). -/
def LV_NAT_IP_ADDRESS_KEYS : List String :=
  ["macvtap", "bridge", "vepa", "passthrough"]

/-- The inner `for key in KEYS` loop of `_parse_lv_host`: when
`interface.get(key, '')` is a value other than the empty string and the
address is still `None`, the address becomes `interface['addresses'][0]`. -/
def lvKeyScan (interface : Value) (keys : List String) (addr : Option Value) :
    Except PyErr (Option Value) :=
  match keys with
  | [] => .ok addr
  | k :: ks => do
      let value ← pyDictGet interface k (.str "")
      if !(value.eqStr "") && addr.isNone then do
        let addrs ← pyGetItem interface "addresses"
        let a ← pyIndex addrs 0
        lvKeyScan interface ks (some a)
      else
        lvKeyScan interface ks addr

/-- The `for interface in network_interfaces` loop of `_parse_lv_host`,
with its early `break` once both addresses are truthy. -/
def lvInterfacesLoop (interfaces : List Value) (ip nat : Option Value) :
    Except PyErr (Option Value × Option Value) :=
  match interfaces with
  | [] => .ok (ip, nat)
  | i :: rest => do
      let ip2 ← lvKeyScan i LV_IP_ADDRESS_KEYS ip
      let nat2 ← lvKeyScan i LV_NAT_IP_ADDRESS_KEYS nat
      if optTruthy ip2 && optTruthy nat2 then .ok (ip2, nat2)
      else lvInterfacesLoop rest ip2 nat2

/-- The `try` body of `_parse_lv_host`, in source order: attributes,
interface list, name from the first interface's `hostname`, then the
address scan. -/
def lvBody (instance_data : Value) : Except PyErr TFStateHost := do
  let attributes ← pyGetItem instance_data "attributes"
  let network_interfaces ← pyGetItem attributes "network_interface"
  let ni0 ← pyIndex network_interfaces 0
  let name ← pyGetItem ni0 "hostname"
  let ifaces ← pyIterList network_interfaces
  let (ip, nat) ← lvInterfacesLoop ifaces none none
  .ok { name := name, ip_address := ip, nat_ip_address := nat }

/-- `_parse_lv_host`: the body under `except (KeyError, IndexError):
return None`; any other exception propagates. -/
def parse_lv_host (instance_data : Value) : Except PyErr (Option TFStateHost) :=
  match lvBody instance_data with
  | .ok h => .ok (some h)
  | .error .keyError => .ok none
  | .error .indexError => .ok none
  | .error e => .error e

/-- The `for interface in network_interfaces` loop of `_parse_yc_host`:
first truthy `ip_address` and first truthy `nat_ip_address` win, with the
early `break` once both are set. -/
def ycInterfacesLoop (interfaces : List Value) (ip nat : Option Value) :
    Except PyErr (Option Value × Option Value) :=
  match interfaces with
  | [] => .ok (ip, nat)
  | i :: rest => do
      let ipv ← pyGetItem i "ip_address"
      let ip2 := if pyTruthy ipv && ip.isNone then some ipv else ip
      let natv ← pyGetItem i "nat_ip_address"
      let nat2 := if pyTruthy natv && nat.isNone then some natv else nat
      if optTruthy ip2 && optTruthy nat2 then .ok (ip2, nat2)
      else ycInterfacesLoop rest ip2 nat2

/-- The `try` body of `_parse_yc_host`: attributes, interface list, name
from `attributes['hostname']`, then the address scan. -/
def ycBody (instance_data : Value) : Except PyErr TFStateHost := do
  let attributes ← pyGetItem instance_data "attributes"
  let network_interfaces ← pyGetItem attributes "network_interface"
  let name ← pyGetItem attributes "hostname"
  let ifaces ← pyIterList network_interfaces
  let (ip, nat) ← ycInterfacesLoop ifaces none none
  .ok { name := name, ip_address := ip, nat_ip_address := nat }

/-- `_parse_yc_host`: the body under `except KeyError: return None`; any
other exception propagates. -/
def parse_yc_host (instance_data : Value) : Except PyErr (Option TFStateHost) :=
  match ycBody instance_data with
  | .ok h => .ok (some h)
  | .error .keyError => .ok none
  | .error e => .error e

/-- `_parse_host`: dispatch on the provider string; an unknown provider
yields `None`, which the caller does not append. -/
def parse_host (instance_data : Value) (provider : Value) :
    Except PyErr (Option TFStateHost) :=
  if provider.eqStr LV_PROVIDER then parse_lv_host instance_data
  else if provider.eqStr YC_PROVIDER then parse_yc_host instance_data
  else .ok none

/-- The `try` body of the resource filter in `_collect_hosts`, in source
order with Python short-circuit `or`: provider lookup, then the
mode/type/provider tests.  `RESOURCE_MODES: set = ('managed')` is the
plain *string* `'managed'`, so `resource['mode'] not in RESOURCE_MODES`
is a substring test (raising `TypeError` on a non-string mode);
`RESOURCE_TYPES` and `RESOURCE_PROVIDERS` are genuine tuples, so their
tests are equality against each element.  Returns `some provider` when
the resource passes the filter, `none` for `continue`. -/
def resourceFilterBody (resource : Value) : Except PyErr (Option Value) := do
  let provider ← pyGetItem resource "provider"
  let mode ← pyGetItem resource "mode"
  let mOk ← pyInString mode "managed"
  if !mOk then return none
  let ty ← pyGetItem resource "type"
  if !(ty.eqStr "libvirt_domain" || ty.eqStr "yandex_compute_instance") then
    return none
  if !(provider.eqStr LV_PROVIDER || provider.eqStr YC_PROVIDER) then
    return none
  return some provider

/-- One iteration of the `for instance_data in resource['instances']`
loop: a parsed host that is not `None` is appended. -/
def instanceStep (provider : Value) (a : List TFStateHost) (inst : Value) :
    Except PyErr (List TFStateHost) := do
  let h ← parse_host inst provider
  match h with
  | some host => pure (a ++ [host])
  | none => pure a

/-- The `for instance_data in resource['instances']` loop. -/
def instancesLoop (provider : Value) (insts : List Value)
    (acc : List TFStateHost) : Except PyErr (List TFStateHost) :=
  insts.foldlM (instanceStep provider) acc

/-- One iteration of the `for resource in tfstate['resources']` loop: the
filter runs under `except KeyError: continue`; the `instances` lookup and
iteration are *outside* that `try`, so their failures propagate. -/
def resourceStep (acc : List TFStateHost) (resource : Value) :
    Except PyErr (List TFStateHost) := do
  let filt ←
    match resourceFilterBody resource with
    | .error .keyError => pure none
    | r => r
  match filt with
  | none => pure acc
  | some provider => do
      let insts ← pyGetItem resource "instances"
      let instList ← pyIterList insts
      instancesLoop provider instList acc

/-- One iteration of the `for tfstate in self.tfstates` loop of
`_collect_hosts`: `tfstate['resources']` is looked up outside any `try`,
so a document without the key (or a non-dict document) aborts. -/
def docHostsStep (acc : List TFStateHost) (tfstate : Value) :
    Except PyErr (List TFStateHost) := do
  let resources ← pyGetItem tfstate "resources"
  let rs ← pyIterList resources
  rs.foldlM resourceStep acc

/-- `_collect_hosts`, threading the list that `self.hosts.append` mutates.
`self.hosts` resolves to the *class attribute* `hosts: list = []`, so the
initial value `acc` is whatever that shared list already contains. -/
def collectHosts (acc : List TFStateHost) (tfstates : List Value) :
    Except PyErr (List TFStateHost) :=
  tfstates.foldlM docHostsStep acc

/-- `_collect_outputs`, threading the dict that `self.outputs |= ...`
mutates.  Like `hosts`, `outputs: dict = {}` is a class attribute, so the
initial value is the shared dict.  `value_dict['value']` runs under
`except KeyError: continue`; a non-dict `value_dict` raises `TypeError`,
which propagates, as does a non-dict `outputs` section (`.items()`). -/
def collectOutputs (acc : List (String × Value)) (tfstates : List Value) :
    Except PyErr (List (String × Value)) :=
  tfstates.foldlM
    (fun a tfstate => do
      let outputs ← pyDictGet tfstate "outputs" (.obj [])
      match outputs with
      | .obj fields =>
          fields.foldlM
            (fun b kv =>
              match pyGetItem kv.2 "value" with
              | .ok v => pure (alistSet b kv.1 v)
              | .error .keyError => pure b
              | .error e => .error e)
            a
      | _ => .error .typeError)
    acc

/-- The mutable state held in `TFStateInventory`'s *class* attributes
`hosts` and `outputs`.  Because both are mutated in place
(`self.hosts.append(...)`, `self.outputs |= ...`) without ever rebinding
an instance attribute to a fresh object, the state survives from one
construction to the next within the same process. -/
structure InvClassState where
  hosts : List TFStateHost
  outputs : List (String × Value)
deriving Repr

/-- The class-attribute defaults `hosts: list = []`, `outputs: dict = {}`
as they stand when the class is first loaded. -/
def initialClassState : InvClassState := { hosts := [], outputs := [] }

/-- `TFStateInventory.__init__`: collect outputs, then hosts, each
growing the shared class-level collection it starts from. -/
def constructTFStateInventory (cls : InvClassState) (tfstates : List Value) :
    Except PyErr InvClassState := do
  let outs ← collectOutputs cls.outputs tfstates
  let hs ← collectHosts cls.hosts tfstates
  .ok { hosts := hs, outputs := outs }

/-! ## InventoryAssembler: `InventoryModule`

The downstream Ansible inventory and display are external; the assembler
is modelled as producing the ordered sequence of calls it issues to them.
Warning messages carry the identifying data (binding key and target); the
exact message text is not modelled. -/

/-- One observable call on the inventory sink or the display. -/
inductive SinkCall where
  | add_host (name : Value)
  | set_variable (entity : Value) (key : String) (value : Value)
  | add_group (group : String)
  | add_child (group : String) (child : Value)
  | warning_missing_output (kind : String) (key : String) (target : String)
  | warning_set_failed (kind : String) (target : String) (key : String)
deriving Repr

/-- `_add_host(host, collect_public_ips)`: pick the address class from the
flag, drop the host on a Python-falsy address (`if not ip_address:`),
otherwise register it and set `ansible_host`. -/
def add_host_call (host : TFStateHost) (collect_public_ips : Bool) :
    Bool × List SinkCall :=
  let ip := if collect_public_ips then host.nat_ip_address else host.ip_address
  match ip with
  | none => (false, [])
  | some a =>
      if pyTruthy a then
        (true, [.add_host host.name, .set_variable host.name "ansible_host" a])
      else (false, [])

/-- The body of the `for host in tfstate_inventory.list_hosts()` loop in
`parse`: when the host was added and `create_hosts_groups` is set, the
group is derived via `get_host_group_name` and registered with the host as
child.  `get_host_group_name` applies `re.sub` to `host.name`, which
raises `TypeError` on a non-string name. -/
def parse_host_step (host : TFStateHost) (collect_public_ips create_groups : Bool)
    (pf : Option String) : Except PyErr (List SinkCall) :=
  let (added, calls) := add_host_call host collect_public_ips
  if added && create_groups then
    match host.name with
    | .str s =>
        let g := get_host_group_name s pf
        .ok (calls ++ [.add_group g, .add_child g host.name])
    | _ => .error .typeError
  else .ok calls

/-- The whole host loop of `parse`, concatenating each host's calls. -/
def add_hosts_loop (hosts : List TFStateHost)
    (collect_public_ips create_groups : Bool) (pf : Option String) :
    Except PyErr (List SinkCall) :=
  hosts.foldlM
    (fun acc h => do
      let calls ← parse_host_step h collect_public_ips create_groups pf
      pure (acc ++ calls))
    []

/-- Tag distinguishing `_add_groups_vars` from `_add_hosts_vars`, whose
bodies differ only in the warning wording. -/
def GROUP_KIND : String := "group"

/-- See `GROUP_KIND`. -/
def HOST_KIND : String := "host"

/-- The body of the inner `for key in keys` loop shared by
`_add_groups_vars` and `_add_hosts_vars`: a key absent from the outputs
(`outputs[key]` raising `KeyError`) warns and continues;
`inventory.set_variable` raising `AnsibleError` (an unknown target,
modelled by the `validTarget` predicate) warns and continues; otherwise
the variable is set on the target. -/
def bindingStep (kind : String) (validTarget : String → Bool)
    (outputs : List (String × Value)) (target : String)
    (acc : List SinkCall) (key : String) : List SinkCall :=
  match alistGet outputs key with
  | none => acc ++ [.warning_missing_output kind key target]
  | some v =>
      if validTarget target then acc ++ [.set_variable (.str target) key v]
      else acc ++ [.warning_set_failed kind target key]

/-- The `for name, keys in data.items(): for key in keys:` double loop
shared by `_add_groups_vars` and `_add_hosts_vars`. -/
def add_vars_loop (kind : String) (validTarget : String → Bool)
    (outputs : List (String × Value)) (data : List (String × List String)) :
    List SinkCall :=
  data.foldl
    (fun acc nk => nk.2.foldl (bindingStep kind validTarget outputs nk.1) acc)
    []

/-- `_add_groups_vars`, over `group_variables_from_output`. -/
def add_groups_vars (validTarget : String → Bool)
    (outputs : List (String × Value)) (data : List (String × List String)) :
    List SinkCall :=
  add_vars_loop GROUP_KIND validTarget outputs data

/-- `_add_hosts_vars`, over `host_variables_from_output`. -/
def add_hosts_vars (validTarget : String → Bool)
    (outputs : List (String × Value)) (data : List (String × List String)) :
    List SinkCall :=
  add_vars_loop HOST_KIND validTarget outputs data

/-- The single sink event produced by one `(target, key)` binding — the
claim-level description of the loop body, for comparison. -/
def bindingCall (kind : String) (validTarget : String → Bool)
    (outputs : List (String × Value)) (target key : String) : SinkCall :=
  match alistGet outputs key with
  | none => .warning_missing_output kind key target
  | some v =>
      if validTarget target then .set_variable (.str target) key v
      else .warning_set_failed kind target key

/-! ## Helper lemmas -/

theorem ok_bind {ε α β : Type} (a : α) (f : α → Except ε β) :
    (Except.ok a : Except ε α) >>= f = f a := rfl

theorem error_bind {ε α β : Type} (e : ε) (f : α → Except ε β) :
    (Except.error e : Except ε α) >>= f = .error e := rfl

theorem dropWhile_append_all {α} (p : α → Bool) :
    ∀ (xs ys : List α), (∀ x ∈ xs, p x = true) →
      (xs ++ ys).dropWhile p = ys.dropWhile p := by
  intro xs
  induction xs with
  | nil => intro ys _; rfl
  | cons a l ih =>
      intro ys h
      have ha : p a = true := h a (by simp)
      simp only [List.cons_append, List.dropWhile_cons, ha, if_true]
      exact ih ys (fun x hx => h x (by simp [hx]))

/-! ## Claim C1 — run isolation / idempotence of extraction -/

/-- A well-formed yandex instance used to exhibit the shared-state bug. -/
def c1Instance : Value :=
  .obj [("attributes", .obj
    [("hostname", .str "h1"),
     ("network_interface", .list
       [.obj [("ip_address", .str "10.0.0.1"),
              ("nat_ip_address", .str "")]])])]

/-- A managed yandex resource wrapping `c1Instance`. -/
def c1Resource : Value :=
  .obj [("mode", .str "managed"),
        ("type", .str "yandex_compute_instance"),
        ("provider", .str YC_PROVIDER),
        ("instances", .list [c1Instance])]

/-- A well-formed state document with one host and one output. -/
def c1Doc : Value :=
  .obj [("resources", .list [c1Resource]),
        ("outputs", .obj [("k1", .obj [("value", .str "v1")])])]

/-- The single host extracted from `c1Doc`. -/
def c1Host : TFStateHost :=
  { name := .str "h1", ip_address := some (.str "10.0.0.1") }

/-- Class state after the first construction over `[c1Doc]`. -/
def c1State1 : InvClassState :=
  { hosts := [c1Host], outputs := [("k1", .str "v1")] }

/-- Class state after the second construction over the same input. -/
def c1State2 : InvClassState :=
  { hosts := [c1Host, c1Host], outputs := [("k1", .str "v1")] }

/-- Sink mutation calls of the first run's host loop. -/
def c1Trace : List SinkCall :=
  [.add_host (.str "h1"),
   .set_variable (.str "h1") "ansible_host" (.str "10.0.0.1"),
   .add_group "h1_group",
   .add_child "h1_group" (.str "h1")]

/-- C1: the claim is the code's intent but the code breaks it.
`hosts: list = []` and `outputs: dict = {}` are *class* attributes of
`TFStateInventory`, mutated in place by `self.hosts.append(...)` and
`self.outputs |= ...`; they are therefore shared between constructions in
the same process.  Constructing the inventory a second time over the same
single-host document list starts from the first run's host list, so the
second run's host list (and hence its sequence of sink mutation calls) is
the first run's sequence duplicated — not byte-identical, and visibly
shared.  -/
theorem tfstate_C1_shared_state_bug :
    constructTFStateInventory initialClassState [c1Doc] = .ok c1State1 ∧
    constructTFStateInventory c1State1 [c1Doc] = .ok c1State2 ∧
    c1State1.hosts.length = 1 ∧ c1State2.hosts.length = 2 ∧
    add_hosts_loop c1State1.hosts false true (some "_group") = .ok c1Trace ∧
    add_hosts_loop c1State2.hosts false true (some "_group") =
      .ok (c1Trace ++ c1Trace) ∧
    c1Trace ≠ c1Trace ++ c1Trace := by
  refine ⟨rfl, rfl, rfl, rfl, rfl, rfl, ?_⟩
  intro h
  have h2 := congrArg List.length h
  simp [c1Trace] at h2

/-! ## Claim C2 — the resource allow-list -/

/-- A libvirt instance whose only interface carries just a hostname. -/
def c2Instance : Value :=
  .obj [("attributes", .obj
    [("network_interface", .list [.obj [("hostname", .str "h2")]])])]

/-- A resource whose `mode` is `"aged"` — *not* the allow-list value
`"managed"`, but a substring of it. -/
def c2ResourceAged : Value :=
  .obj [("mode", .str "aged"),
        ("type", .str "libvirt_domain"),
        ("provider", .str LV_PROVIDER),
        ("instances", .list [c2Instance])]

/-- Document containing only the mode-`"aged"` resource. -/
def c2Doc : Value := .obj [("resources", .list [c2ResourceAged])]

/-- C2: the claim matches the annotation `RESOURCE_MODES: set` and the
obvious intent, but the code is wrong: `('managed')` is the plain string
`'managed'`, so `resource['mode'] not in RESOURCE_MODES` is a substring
test.  A resource whose mode is `"aged"` (a strict substring of
`"managed"`) passes the filter and produces a host, where the claim says
the entry must be skipped. -/
theorem tfstate_C2_mode_substring_bug :
    pyInString (Value.str "aged") "managed" = .ok true ∧
    resourceFilterBody c2ResourceAged = .ok (some (Value.str LV_PROVIDER)) ∧
    collectHosts [] [c2Doc] = .ok [{ name := Value.str "h2" }] :=
  ⟨rfl, rfl, rfl⟩

/-! ## Claim C3 — locality of malformed-input skipping -/

/-- A well-formed libvirt instance. -/
def c3GoodInstance : Value :=
  .obj [("attributes", .obj
    [("network_interface", .list [.obj [("hostname", .str "h3")]])])]

/-- A managed libvirt resource whose instance list starts with the
non-object instance `"oops"`, followed by a well-formed sibling. -/
def c3BadDoc : Value :=
  .obj [("resources", .list
    [.obj [("mode", .str "managed"),
           ("type", .str "libvirt_domain"),
           ("provider", .str LV_PROVIDER),
           ("instances", .list [.str "oops", c3GoodInstance])]])]

/-- A separate well-formed document listed after the malformed one. -/
def c3GoodDoc : Value :=
  .obj [("resources", .list
    [.obj [("mode", .str "managed"),
           ("type", .str "libvirt_domain"),
           ("provider", .str LV_PROVIDER),
           ("instances", .list [c3GoodInstance])]])]

/-- C3 counterexample: a document list whose first document holds one
non-object instance.  `_parse_lv_host` subscripts it
(`instance_data['attributes']`), raising `TypeError`, which its
`except (KeyError, IndexError)` does not catch; the whole run aborts, the
well-formed sibling instance and the entire second document are never
processed — the claim said the malformed unit is skipped locally.  Alone,
the second document yields its host. -/
theorem tfstate_C3_counterexample :
    collectHosts [] [c3BadDoc, c3GoodDoc] = .error .typeError ∧
    collectHosts [] [c3GoodDoc] = .ok [{ name := Value.str "h3" }] :=
  ⟨rfl, rfl⟩

/-- A libvirt instance whose `network_interface` is a *dict*:
`network_interfaces[0]` is then a lookup of the integer key `0`, which
raises `KeyError` — caught, so the instance is skipped. -/
def c3DictNiInstance : Value :=
  .obj [("attributes", .obj
    [("network_interface", .obj [("mac", .str "aa:bb")])])]

/-- A libvirt instance whose `network_interface` is the empty string:
`''[0]` raises `IndexError` — caught, so the instance is skipped. -/
def c3EmptyStrNiInstance : Value :=
  .obj [("attributes", .obj [("network_interface", .str "")])]

/-- C3 amended, positive side: the failures the source *does* catch are
local and silent.  (1)/(2): an instance whose parse body fails with
`KeyError` (or `IndexError` for libvirt) yields `None` instead of
raising.  (3): a resource whose filter body fails with `KeyError`
contributes nothing and processing continues with the accumulator
unchanged.  (4): an instance parsed to `None` is invisible — deleting it
from the instance list leaves the loop's outcome unchanged, so siblings
before and after it are processed exactly as without it.  (5): documents
compose sequentially, so a per-document failure is confined to the suffix
of the run (it aborts the rest — the negative side shown by the
counterexample).  (6)/(7): in particular, a dict-valued
`network_interface` (`KeyError` from the integer subscript) and an
empty-string one (`IndexError`) are skipped, not aborted — only failures
outside the caught classes, such as the `TypeError` from a non-object
instance, abort the run. -/
theorem tfstate_C3_amended :
    (∀ inst, (lvBody inst = .error .keyError ∨ lvBody inst = .error .indexError) →
       parse_lv_host inst = .ok none) ∧
    (∀ inst, ycBody inst = .error .keyError → parse_yc_host inst = .ok none) ∧
    (∀ resource acc, resourceFilterBody resource = .error .keyError →
       resourceStep acc resource = .ok acc) ∧
    (∀ provider acc pre inst post, parse_host inst provider = .ok none →
       instancesLoop provider (pre ++ inst :: post) acc =
         instancesLoop provider (pre ++ post) acc) ∧
    (∀ acc ts1 ts2, collectHosts acc (ts1 ++ ts2) =
       collectHosts acc ts1 >>= fun a => collectHosts a ts2) ∧
    parse_lv_host c3DictNiInstance = .ok none ∧
    parse_lv_host c3EmptyStrNiInstance = .ok none := by
  refine ⟨?_, ?_, ?_, ?_, ?_, rfl, rfl⟩
  · intro inst h
    unfold parse_lv_host
    rcases h with h | h <;> rw [h]
  · intro inst h
    unfold parse_yc_host
    rw [h]
  · intro resource acc h
    simp only [resourceStep, h]
    rfl
  · intro provider acc pre inst post h
    induction pre generalizing acc with
    | nil =>
        simp only [List.nil_append, instancesLoop, List.foldlM_cons,
          instanceStep, h]
        rfl
    | cons a l ih =>
        simp only [List.cons_append, instancesLoop, List.foldlM_cons,
          instanceStep]
        cases hstep : instanceStep provider acc a with
        | error e =>
            simp only [instanceStep] at hstep
            rw [hstep]
            rfl
        | ok acc2 =>
            simp only [instanceStep] at hstep
            rw [hstep]
            exact ih acc2
  · intro acc ts1 ts2
    unfold collectHosts
    exact List.foldlM_append ..

/-- Witness for `tfstate_C3_amended`: the empty object instance fails its
body with `KeyError` and is skipped, and removing such an instance from
an instance list leaves the loop unchanged. -/
theorem tfstate_C3_amended_witness :
    parse_lv_host (Value.obj []) = .ok none ∧
    instancesLoop (Value.str LV_PROVIDER) [Value.obj []] [] =
      instancesLoop (Value.str LV_PROVIDER) [] [] := by
  constructor
  · exact tfstate_C3_amended.1 (Value.obj []) (Or.inl rfl)
  · exact tfstate_C3_amended.2.2.2.1 (Value.str LV_PROVIDER) [] []
      (Value.obj []) [] rfl

/-! ## Claim C4 — `get_host_group_name` -/

/-- C4 counterexample: the claim says a trailing numeric suffix is
stripped even without a preceding dash, so `group_name("host01", None)`
would be `"host"`; the source pattern `(?:\-\d*)?$` requires the dash and
leaves `"host01"` unchanged. -/
theorem tfstate_C4_counterexample :
    get_host_group_name "host01" none ≠ claim_group_name "host01" none ∧
    get_host_group_name "host01" none = "host01" ∧
    claim_group_name "host01" none = "host" := by
  refine ⟨?_, rfl, rfl⟩
  decide

theorem stripCore_dash (t d : List Char) (hd : ∀ c ∈ d, pyDigit c = true) :
    stripCore (t ++ '-' :: d) = t := by
  unfold stripCore
  have hrev : (t ++ '-' :: d).reverse = d.reverse ++ '-' :: t.reverse := by
    simp
  rw [hrev, dropWhile_append_all pyDigit d.reverse ('-' :: t.reverse)
    (fun x hx => hd x (by simpa using hx))]
  simp [List.dropWhile_cons, pyDigit]

theorem stripCore_keep (t : List Char) (c : Char) (d : List Char)
    (hc : pyDigit c = false) (hne : c ≠ '-')
    (hd : ∀ x ∈ d, pyDigit x = true) :
    stripCore (t ++ c :: d) = t ++ c :: d := by
  unfold stripCore
  have hrev : (t ++ c :: d).reverse = d.reverse ++ c :: t.reverse := by
    simp
  rw [hrev, dropWhile_append_all pyDigit d.reverse (c :: t.reverse)
    (fun x hx => hd x (by simpa using hx))]
  simp only [List.dropWhile_cons, hc, Bool.false_eq_true, if_false]
  split
  · rename_i heq
    cases heq
    exact absurd rfl hne
  · rfl

/-- C4 amended: the stripped suffix is a dash followed by a (possibly
empty) run of digits — the dash is required, a bare trailing digit run is
kept — removed at the end of the string (or just before a final newline,
where Python's `$` also matches: `"a-1\n"` becomes `"a\n"`).  The postfix
is then appended (when non-empty) and every non-word character is
replaced by underscore; the claim's two examples hold.  The keep clause
is stated for an ASCII non-digit boundary character and a non-empty
digit run, where the embedding's ASCII `\d` fragment agrees with
Python. -/
theorem tfstate_C4_amended :
    (∀ (t d : List Char), (∀ c ∈ d, pyDigit c = true) →
       stripDashDigits (t ++ '-' :: d) = t) ∧
    (∀ (t : List Char) (c : Char) (d : List Char) (dl : Char),
       c.val < 128 → pyDigit c = false → c ≠ '-' →
       (∀ x ∈ d, pyDigit x = true) → pyDigit dl = true →
       stripDashDigits (t ++ c :: (d ++ [dl])) = t ++ c :: (d ++ [dl])) ∧
    stripDashDigits "a-1\n".data = "a\n".data ∧
    get_host_group_name "test-host-01" none = "test_host" ∧
    get_host_group_name "test.host-02" (some "_group") = "test_host_group" ∧
    get_host_group_name "host01" none = "host01" := by
  refine ⟨?_, ?_, rfl, rfl, rfl, rfl⟩
  · intro t d hd
    unfold stripDashDigits
    have hrev : (t ++ '-' :: d).reverse = d.reverse ++ '-' :: t.reverse := by
      simp
    rw [hrev]
    split
    · rename_i rest heq
      exfalso
      cases hdrev : d.reverse with
      | nil =>
          rw [hdrev, List.nil_append] at heq
          injection heq with h1 h2
          exact absurd h1 (by decide)
      | cons a as =>
          rw [hdrev] at heq
          have ha : a ∈ d := by
            have hm : a ∈ d.reverse := by rw [hdrev]; simp
            simpa using hm
          have hda := hd a ha
          rw [List.cons_append] at heq
          injection heq with h1 h2
          rw [h1] at hda
          exact absurd hda (by decide)
    · exact stripCore_dash t d hd
  · intro t c d dl h128 hc hcne hd hdl
    unfold stripDashDigits
    have hrev : (t ++ c :: (d ++ [dl])).reverse =
        dl :: (d.reverse ++ c :: t.reverse) := by
      simp
    rw [hrev]
    split
    · rename_i rest heq
      exfalso
      injection heq with h1 h2
      rw [h1] at hdl
      exact absurd hdl (by decide)
    · have hrun : ∀ x ∈ d ++ [dl], pyDigit x = true := by
        intro x hx
        rcases List.mem_append.mp hx with hx | hx
        · exact hd x hx
        · simp only [List.mem_singleton] at hx
          rw [hx]
          exact hdl
      exact stripCore_keep t c (d ++ [dl]) hc hcne hrun

/-- Witness for `tfstate_C4_amended` at concrete inputs. -/
theorem tfstate_C4_amended_witness :
    stripDashDigits ("k8-node".data ++ '-' :: "01".data) = "k8-node".data ∧
    stripDashDigits ("hos".data ++ 't' :: ("0".data ++ ['1'])) =
      "hos".data ++ 't' :: ("0".data ++ ['1']) := by
  constructor
  · exact tfstate_C4_amended.1 "k8-node".data "01".data (by decide)
  · exact tfstate_C4_amended.2.1 "hos".data 't' "0".data '1' (by decide)
      (by decide) (by decide) (by decide) (by decide)

/-! ## Matcher lemmas -/

theorem matchStar_cons (cls : Char → Bool) (k : List Char → Bool)
    (c : Char) (s : List Char) (hc : cls c = true)
    (hs : matchStar cls k s = true) : matchStar cls k (c :: s) = true := by
  simp [matchStar, hc, hs]

theorem matchStar_weaken (cls : Char → Bool) (k1 k2 : List Char → Bool)
    (t : List Char) :
    ∀ s, matchStar cls k1 s = true →
      (∀ v, k1 v = true → k2 (v ++ t) = true) →
      matchStar cls k2 (s ++ t) = true := by
  intro s
  induction s with
  | nil =>
      intro h hk
      have h2 : k2 t = true := hk [] (by simpa [matchStar] using h)
      cases t with
      | nil => simpa [matchStar] using h2
      | cons c cs => simp [matchStar, h2]
  | cons c cs ih =>
      intro h hk
      simp only [matchStar, Bool.or_eq_true, Bool.and_eq_true] at h
      rcases h with h | ⟨hc, hrest⟩
      · have h2 : k2 (c :: (cs ++ t)) = true := by
          simpa using hk (c :: cs) h
        simp [matchStar, h2]
      · exact matchStar_cons cls k2 c (cs ++ t) hc (ih hrest hk)

theorem matchStar_split (cls : Char → Bool) (k : List Char → Bool) :
    ∀ s, matchStar cls k s = true →
      ∃ u v, s = u ++ v ∧ (∀ c ∈ u, cls c = true) ∧ k v = true := by
  intro s
  induction s with
  | nil =>
      intro h
      exact ⟨[], [], rfl, by simp, by simpa [matchStar] using h⟩
  | cons c cs ih =>
      intro h
      simp only [matchStar, Bool.or_eq_true, Bool.and_eq_true] at h
      rcases h with h | ⟨hc, hrest⟩
      · exact ⟨[], c :: cs, rfl, by simp, h⟩
      · obtain ⟨u, v, huv, hall, hk⟩ := ih hrest
        exact ⟨c :: u, v, by simp [huv], by
          intro x hx
          rcases List.mem_cons.mp hx with hx | hx
          · exact hx ▸ hc
          · exact hall x hx, hk⟩

theorem matchItems_append :
    ∀ (items1 : List GItem) (s1 : List Char) (items2 : List GItem)
      (s2 : List Char), matchItems items1 s1 = true →
      matchItems items2 s2 = true →
      matchItems (items1 ++ items2) (s1 ++ s2) = true := by
  intro items1
  induction items1 with
  | nil =>
      intro s1 items2 s2 h1 h2
      have : s1 = [] := by
        cases s1 with
        | nil => rfl
        | cons a l => simp [matchItems] at h1
      subst this
      simpa using h2
  | cons it items ih =>
      intro s1 items2 s2 h1 h2
      cases it with
      | lit c =>
          cases s1 with
          | nil => simp [matchItems] at h1
          | cons x xs =>
              simp only [matchItems, Bool.and_eq_true] at h1
              obtain ⟨hx, hrest⟩ := h1
              simp only [List.cons_append, matchItems, Bool.and_eq_true]
              exact ⟨hx, ih xs items2 s2 hrest h2⟩
      | starInner =>
          simp only [matchItems] at h1 ⊢
          exact matchStar_weaken innerChar _ _ s2 s1 h1
            (fun v hv => ih v items2 s2 hv h2)
      | starAcross =>
          simp only [matchItems] at h1 ⊢
          exact matchStar_weaken acrossChar _ _ s2 s1 h1
            (fun v hv => ih v items2 s2 hv h2)
      | groupMark =>
          simp only [matchItems] at h1 ⊢
          exact ih s1 items2 s2 h1 h2

/-- The wildcard-free reading of a component character, on components of
the grammar (no `(`/`)`, so every non-`*` character is a literal). -/
theorem partItems_map_match :
    ∀ (part : List Char), (∀ c ∈ part, litOk c = true ∨ c = '*') →
      matchItems (part.map charItem)
        (part.map (fun c => if c = '*' then 'a' else c)) = true := by
  intro part
  induction part with
  | nil => intro _; rfl
  | cons c rest ih =>
      intro hv
      have ihr := ih (fun x hx => hv x (by simp [hx]))
      by_cases hc : c = '*'
      · subst hc
        simp only [List.map_cons, charItem, if_pos rfl, matchItems]
        refine matchStar_cons innerChar _ 'a' _ (by decide) ?_
        cases hrest : (rest.map fun c => if c = '*' then 'a' else c) with
        | nil => simpa [matchStar, hrest] using ihr
        | cons y ys => simp [matchStar, hrest ▸ ihr]
      · have hlit : litOk c = true := by
          rcases hv c (by simp) with h | h
          · exact h
          · exact absurd h hc
        have hpar : ¬(c = '(' ∨ c = ')') := by
          intro h
          rcases h with h | h <;> simp [litOk, h] at hlit
        simp only [List.map_cons, charItem, if_neg hc, if_neg hpar,
          matchItems, if_neg hc, Bool.and_eq_true]
        exact ⟨by simp, ihr⟩

theorem partItems_match (part : List Char)
    (h : validComponent part = true) :
    matchItems (partItems part) (instComponent part) = true := by
  unfold partItems instComponent
  by_cases hss : part = ['*', '*']
  · simp only [if_pos hss]
    decide
  · simp only [if_neg hss]
    have hall : ∀ c ∈ part, litOk c = true ∨ c = '*' := by
      simp only [validComponent, Bool.or_eq_true, decide_eq_true_eq,
        Bool.and_eq_true] at h
      rcases h with h | ⟨_, h2⟩
      · exact absurd h hss
      · intro c hc
        have := List.all_eq_true.mp h2 c hc
        simpa [Bool.or_eq_true, decide_eq_true_eq] using this
    exact partItems_map_match part hall

theorem joinWith_match :
    ∀ (parts : List (List Char)), (∀ p ∈ parts, validComponent p = true) →
      matchItems (joinWith [GItem.lit '/'] (parts.map partItems))
        (joinWith ['/'] (parts.map instComponent)) = true := by
  intro parts
  induction parts with
  | nil => intro _; rfl
  | cons p rest ih =>
      intro hv
      cases rest with
      | nil =>
          simp only [List.map_cons, List.map_nil, joinWith]
          exact partItems_match p (hv p (by simp))
      | cons q rs =>
          simp only [List.map_cons, joinWith]
          have hp := partItems_match p (hv p (by simp))
          have hsep : matchItems [GItem.lit '/'] ['/'] = true := by decide
          have hjoin := ih (fun x hx => hv x (by simp [hx]))
          simp only [List.map_cons, joinWith] at hjoin
          have h1 := matchItems_append [GItem.lit '/'] ['/'] _ _ hsep hjoin
          simpa [List.append_assoc] using
            matchItems_append (partItems p) (instComponent p) _ _ hp h1

theorem partToItems_ok (part : List Char) (h : validComponent part = true) :
    partToItems part = .ok (partItems part) := by
  unfold partToItems
  split
  · rename_i hcond
    obtain ⟨hds, hne⟩ := hcond
    simp only [validComponent, Bool.or_eq_true, decide_eq_true_eq,
      Bool.and_eq_true, Bool.not_eq_true] at h
    rcases h with h | ⟨h1, _⟩
    · exact absurd h hne
    · rw [hds] at h1
      cases h1
  · rfl

theorem compileParts_ok :
    ∀ parts : List (List Char), (∀ p ∈ parts, validComponent p = true) →
      compileParts parts = .ok (parts.map partItems) := by
  intro parts
  induction parts with
  | nil => intro _; rfl
  | cons p rest ih =>
      intro h
      simp only [compileParts, partToItems_ok p (h p (by simp)),
        ih (fun q hq => h q (by simp [hq]))]
      rfl

theorem compileParts_error :
    ∀ parts : List (List Char),
      (∃ p ∈ parts, containsDoubleStar p = true ∧ p ≠ ['*', '*']) →
      compileParts parts = .error .invalidDoubleStar := by
  intro parts
  induction parts with
  | nil => intro h; simp at h
  | cons a rest ih =>
      intro h
      cases hstep : partToItems a with
      | error e =>
          cases e
          simp only [compileParts, hstep]
          rfl
      | ok i =>
          have hrest : ∃ p ∈ rest, containsDoubleStar p = true ∧ p ≠ ['*', '*'] := by
            rcases h with ⟨p, hp, hbad⟩
            rcases List.mem_cons.mp hp with hp | hp
            · subst hp
              unfold partToItems at hstep
              rw [if_pos hbad] at hstep
              cases hstep
            · exact ⟨p, hp, hbad⟩
          simp only [compileParts, hstep, ih hrest]
          rfl

/-! ## Claim C5 — totality of compilation over the grammar -/

/-- C5 counterexample: the claim's grammar admits any literal segment,
but the unescaped metacharacters are not matched literally.  The
wildcard-free pattern `a(b)/c` compiles without the pattern error, yet
the produced regex `^a(b)\/c$` groups the parentheses instead of
matching them, so the pattern's own literal path `a(b)/c` — the minimal
instantiation the claim says is accepted — is rejected (the matcher
accepts `ab/c` instead).  (`[` is worse still: `a[b/c` makes
`re.compile` itself raise, outside this embedding's fragment.) -/
theorem tfstate_C5_counterexample :
    glob_to_regex "a(b)/c" =
      .ok [GItem.lit 'a', .groupMark, .lit 'b', .groupMark,
           .lit '/', .lit 'c'] ∧
    matchItems [GItem.lit 'a', .groupMark, .lit 'b', .groupMark,
      GItem.lit '/', .lit 'c'] "a(b)/c".data = false ∧
    matchItems [GItem.lit 'a', .groupMark, .lit 'b', .groupMark,
      GItem.lit '/', .lit 'c'] "ab/c".data = true := by
  refine ⟨rfl, by decide, by decide⟩

/-- C5 amended: over patterns whose literal segments avoid the five
regex metacharacters the source leaves unescaped (`( ) [ ] |`), every
pattern conforming to the grammar compiles without error (to the
itemwise translation, metacharacters of the escape list included as
self-matching literals), and the compiled matcher accepts the literal
path obtained by replacing each `*`/`**` with the minimal non-empty
literal `a`. -/
theorem tfstate_C5_compile_total (glob : String)
    (h : validPattern glob = true) :
    glob_to_regex glob =
      .ok (joinWith [GItem.lit '/'] ((splitSep glob.data).map partItems)) ∧
    matchItems (joinWith [GItem.lit '/'] ((splitSep glob.data).map partItems))
      (instantiate glob) = true := by
  have hall : ∀ p ∈ splitSep glob.data, validComponent p = true := by
    intro p hp
    exact List.all_eq_true.mp h p hp
  constructor
  · simp only [glob_to_regex, compileParts_ok (splitSep glob.data) hall]
    rfl
  · exact joinWith_match (splitSep glob.data) hall

/-- Witness for `tfstate_C5_compile_total` at a concrete pattern. -/
theorem tfstate_C5_witness :
    glob_to_regex "production/**/*.tfstate" =
      .ok (joinWith [GItem.lit '/']
        ((splitSep "production/**/*.tfstate".data).map partItems)) ∧
    matchItems
      (joinWith [GItem.lit '/']
        ((splitSep "production/**/*.tfstate".data).map partItems))
      (instantiate "production/**/*.tfstate") = true :=
  tfstate_C5_compile_total "production/**/*.tfstate" (by decide)

/-! ## Claim C6 — fused `**` is rejected, bare `**` is accepted -/

/-- C6: whenever some `/`-separated component contains `**` together with
other characters, compilation fails with the `AnsibleParserError`
(`production/prod**/*` in particular), while a component that is exactly
`**` is accepted (`production/**/*` compiles). -/
theorem tfstate_C6_double_star_rejected :
    (∀ glob : String,
       (∃ p ∈ splitSep glob.data, containsDoubleStar p = true ∧ p ≠ ['*', '*']) →
       glob_to_regex glob = .error .invalidDoubleStar) ∧
    glob_to_regex "production/prod**/*" = .error .invalidDoubleStar ∧
    partToItems ['*', '*'] = .ok [.starAcross] ∧
    glob_to_regex "production/**/*" =
      .ok ("production".data.map GItem.lit ++
        [GItem.lit '/', GItem.starAcross, GItem.lit '/', GItem.starInner]) := by
    refine ⟨?_, rfl, rfl, rfl⟩
    intro glob h
    simp only [glob_to_regex, compileParts_error (splitSep glob.data) h]
    rfl

/-- Witness for `tfstate_C6_double_star_rejected` at a concrete fused
pattern. -/
theorem tfstate_C6_witness :
    glob_to_regex "a**b/c" = .error .invalidDoubleStar :=
  tfstate_C6_double_star_rejected.1 "a**b/c" (by decide)

/-! ## Claim C7 — matcher semantics of `*` and `**` -/

/-- Occurrences of a character in a string. -/
def countChar (c : Char) : List Char → Nat
  | [] => 0
  | x :: xs => (if x = c then 1 else 0) + countChar c xs

/-- Path separators a compiled pattern consumes as literals. -/
def countLitSlash : List GItem → Nat
  | [] => 0
  | .lit c :: xs => (if c = '/' then 1 else 0) + countLitSlash xs
  | _ :: xs => countLitSlash xs

theorem countChar_append (c : Char) :
    ∀ u v : List Char, countChar c (u ++ v) = countChar c u + countChar c v := by
  intro u v
  induction u with
  | nil => simp [countChar]
  | cons x xs ih => simp [countChar, ih, Nat.add_assoc]

theorem countChar_pos_of_mem (c : Char) :
    ∀ u : List Char, c ∈ u → 1 ≤ countChar c u := by
  intro u
  induction u with
  | nil => intro h; cases h
  | cons x xs ih =>
      intro h
      rcases List.mem_cons.mp h with h | h
      · simp [countChar, h.symm]
      · have := ih h
        simp only [countChar]
        omega

theorem countChar_eq_zero_of_all (c : Char) (p : Char → Bool)
    (hp : p c = false) :
    ∀ u : List Char, (∀ x ∈ u, p x = true) → countChar c u = 0 := by
  intro u
  induction u with
  | nil => intro _; rfl
  | cons x xs ih =>
      intro h
      have hx : ¬x = c := by
        intro hxc
        have hxp : p x = true := h x (List.mem_cons_self x xs)
        rw [hxc] at hxp
        rw [hxp] at hp
        cases hp
      simp only [countChar, if_neg hx, Nat.zero_add]
      exact ih (fun y hy => h y (by simp [hy]))

/-- A pattern without a `**` component consumes exactly its literal
number of path separators: a single `*` never crosses a `/`. -/
theorem matchItems_count_slash :
    ∀ (items : List GItem) (s : List Char), GItem.starAcross ∉ items →
      matchItems items s = true → countChar '/' s = countLitSlash items := by
  intro items
  induction items with
  | nil =>
      intro s _ h
      cases s with
      | nil => rfl
      | cons a l => simp [matchItems] at h
  | cons it rest ih =>
      intro s hna h
      have hna2 : GItem.starAcross ∉ rest := fun hx => hna (by simp [hx])
      cases it with
      | lit c =>
          cases s with
          | nil => simp [matchItems] at h
          | cons x xs =>
              simp only [matchItems, Bool.and_eq_true, decide_eq_true_eq] at h
              obtain ⟨hx, hrest⟩ := h
              simp only [countChar, countLitSlash, hx, ih xs hna2 hrest]
      | starInner =>
          simp only [matchItems] at h
          obtain ⟨u, v, huv, hall, hv⟩ := matchStar_split innerChar _ s h
          have hu : countChar '/' u = 0 :=
            countChar_eq_zero_of_all '/' innerChar (by decide) u hall
          rw [huv, countChar_append, hu, Nat.zero_add]
          simpa [countLitSlash] using ih v hna2 hv
      | starAcross => exact absurd (by simp) hna
      | groupMark =>
          simp only [matchItems] at h
          simpa [countLitSlash] using ih s hna2 h

/-- The compiled form of `production/**/*.tfstate`. -/
def p7items1 : List GItem :=
  "production".data.map GItem.lit ++
    [GItem.lit '/', GItem.starAcross, GItem.lit '/', GItem.starInner,
     GItem.lit '.'] ++ "tfstate".data.map GItem.lit

/-- The compiled form of `production/*dir/*.tfstate`. -/
def p7items2 : List GItem :=
  "production".data.map GItem.lit ++ [GItem.lit '/', GItem.starInner] ++
    "dir".data.map GItem.lit ++
    [GItem.lit '/', GItem.starInner, GItem.lit '.'] ++
    "tfstate".data.map GItem.lit

/-- C7: the compiled matcher is anchored at both ends (a candidate with a
leading or trailing extra character fails); a bare `**` component spans
path levels (both one- and two-level directories match); a single `*`
never consumes a separator, so any candidate with a `/` inside the `*dir`
segment of `production/*dir/*.tfstate` is rejected. -/
theorem tfstate_C7_matcher :
    glob_to_regex "production/**/*.tfstate" = .ok p7items1 ∧
    matchItems p7items1 "production/dir/file.tfstate".data = true ∧
    matchItems p7items1 "production/dir/subdir/file.tfstate".data = true ∧
    matchItems p7items1 "Xproduction/dir/file.tfstate".data = false ∧
    matchItems p7items1 "production/dir/file.tfstateX".data = false ∧
    glob_to_regex "production/*dir/*.tfstate" = .ok p7items2 ∧
    matchItems p7items2 "production/dir/file.tfstate".data = true ∧
    (∀ u : List Char, '/' ∈ u →
       matchItems p7items2
         ("production/".data ++ u ++ "dir/file.tfstate".data) = false) := by
  refine ⟨rfl, by decide, by decide, by decide, by decide, rfl, by decide, ?_⟩
  intro u hu
  cases hm : matchItems p7items2 ("production/".data ++ u ++ "dir/file.tfstate".data) with
  | false => rfl
  | true =>
      exfalso
      have hcount := matchItems_count_slash p7items2 _ (by decide) hm
      have h2 : countLitSlash p7items2 = 2 := by decide
      rw [countChar_append, countChar_append] at hcount
      have hpre : countChar '/' "production/".data = 1 := by decide
      have hpost : countChar '/' "dir/file.tfstate".data = 1 := by decide
      have hu1 : 1 ≤ countChar '/' u := countChar_pos_of_mem '/' u hu
      rw [hpre, hpost, h2] at hcount
      omega

/-- Witness for `tfstate_C7_matcher` at a concrete candidate with a `/`
inside the `*dir` segment. -/
theorem tfstate_C7_witness :
    matchItems p7items2
      ("production/".data ++ ['/'] ++ "dir/file.tfstate".data) = false :=
  tfstate_C7_matcher.2.2.2.2.2.2.2 ['/'] (by decide)

/-! ## Claim C8 — address selection gates registration and grouping -/

/-- The address class `_add_host` reads, as selected by the
`collect_public_ips` flag (`address_selector`). -/
def selectedAddress (host : TFStateHost) (collect_public_ips : Bool) :
    Option Value :=
  if collect_public_ips then host.nat_ip_address else host.ip_address

/-- C8 counterexample: a host whose selected address is *present* but the
empty string.  The claim says a host with the selected address present is
registered with it; the source tests `if not ip_address:`, Python
truthiness, so the empty string is dropped exactly like `None` — no
registration call and no group despite `create_groups`. -/
theorem tfstate_C8_counterexample :
    selectedAddress { name := .str "h", ip_address := some (.str "") } false =
      some (Value.str "") ∧
    add_host_call { name := .str "h", ip_address := some (.str "") } false =
      (false, []) ∧
    parse_host_step { name := .str "h", ip_address := some (.str "") }
      false true (some "_group") = .ok [] :=
  ⟨rfl, rfl, rfl⟩

/-- C8 amended: the gate is Python truthiness of the selected address.  A
host whose selected address is absent *or falsy (the empty string)*
produces no sink call at all — no registration and no group, even with
`create_groups` on; a host whose selected address is present and truthy
is registered and gets `ansible_host` set to exactly that address. -/
theorem tfstate_C8_amended :
    ∀ (host : TFStateHost) (cp cg : Bool) (pf : Option String),
      (optTruthy (selectedAddress host cp) = false →
         add_host_call host cp = (false, []) ∧
         parse_host_step host cp cg pf = .ok []) ∧
      (∀ a, selectedAddress host cp = some a → pyTruthy a = true →
         add_host_call host cp =
           (true, [.add_host host.name,
                   .set_variable host.name "ansible_host" a])) := by
  intro host cp cg pf
  constructor
  · intro hf
    have hcall : add_host_call host cp = (false, []) := by
      unfold add_host_call
      unfold selectedAddress at hf
      cases hsel : (if cp then host.nat_ip_address else host.ip_address) with
      | none => rfl
      | some a =>
          rw [hsel] at hf
          simp only [optTruthy] at hf
          simp [hf]
    refine ⟨hcall, ?_⟩
    unfold parse_host_step
    rw [hcall]
    rfl
  · intro a hsel ht
    unfold add_host_call
    unfold selectedAddress at hsel
    rw [hsel]
    simp [ht]

/-- Witness for `tfstate_C8_amended`: a host with no internal address is
silently dropped; a host with a truthy internal address is registered
with it. -/
theorem tfstate_C8_amended_witness :
    (add_host_call { name := .str "h1" } false = (false, []) ∧
     parse_host_step { name := .str "h1" } false true (some "_group") =
       .ok []) ∧
    add_host_call
        { name := .str "h2", ip_address := some (.str "10.0.0.5") } false =
      (true, [.add_host (.str "h2"),
              .set_variable (.str "h2") "ansible_host" (.str "10.0.0.5")]) := by
  constructor
  · exact (tfstate_C8_amended { name := .str "h1" } false true
      (some "_group")).1 rfl
  · exact (tfstate_C8_amended
      { name := .str "h2", ip_address := some (.str "10.0.0.5") } false true
      (some "_group")).2 (.str "10.0.0.5") rfl rfl

/-! ## Claim C9 — output-variable bindings are independent -/

theorem bindingStep_eq (kind : String) (vt : String → Bool)
    (outs : List (String × Value)) (target : String)
    (acc : List SinkCall) (key : String) :
    bindingStep kind vt outs target acc key =
      acc ++ [bindingCall kind vt outs target key] := by
  unfold bindingStep bindingCall
  cases alistGet outs key with
  | none => rfl
  | some v =>
      by_cases hv : vt target = true
      · simp [hv]
      · simp [hv]

theorem foldl_bindingStep (kind : String) (vt : String → Bool)
    (outs : List (String × Value)) (target : String) :
    ∀ (keys : List String) (acc : List SinkCall),
      keys.foldl (bindingStep kind vt outs target) acc =
        acc ++ keys.map (bindingCall kind vt outs target) := by
  intro keys
  induction keys with
  | nil => intro acc; simp
  | cons k ks ih =>
      intro acc
      simp only [List.foldl_cons, bindingStep_eq, ih, List.map_cons]
      simp

theorem foldl_add_vars (kind : String) (vt : String → Bool)
    (outs : List (String × Value)) :
    ∀ (data : List (String × List String)) (acc : List SinkCall),
      data.foldl
          (fun acc2 nk => nk.2.foldl (bindingStep kind vt outs nk.1) acc2)
          acc =
        acc ++ data.flatMap (fun nk => nk.2.map (bindingCall kind vt outs nk.1)) := by
  intro data
  induction data with
  | nil => intro acc; simp
  | cons nk rest ih =>
      intro acc
      have h1 : List.foldl
            (fun acc2 nk => nk.2.foldl (bindingStep kind vt outs nk.1) acc2)
            acc (nk :: rest) =
          List.foldl
            (fun acc2 nk => nk.2.foldl (bindingStep kind vt outs nk.1) acc2)
            (nk.2.foldl (bindingStep kind vt outs nk.1) acc) rest := rfl
      rw [h1, foldl_bindingStep, ih, List.flatMap_cons, List.append_assoc]

/-- C9: each `(target, output_key)` binding contributes exactly one event
— a set-variable call when the key resolves and the sink accepts the
target, a non-fatal warning when the key is absent from the accumulated
outputs or the sink rejects the target — and the whole run is the
concatenation of the per-binding events, so a skipped binding never
stops the remaining bindings from being processed. -/
theorem tfstate_C9_bindings :
    ∀ (kind : String) (vt : String → Bool) (outs : List (String × Value))
      (data : List (String × List String)),
      (add_vars_loop kind vt outs data =
         data.flatMap (fun nk => nk.2.map (bindingCall kind vt outs nk.1))) ∧
      (∀ d1 d2, add_vars_loop kind vt outs (d1 ++ d2) =
         add_vars_loop kind vt outs d1 ++ add_vars_loop kind vt outs d2) ∧
      (∀ target key, alistGet outs key = none →
         bindingCall kind vt outs target key =
           .warning_missing_output kind key target) ∧
      (∀ target key v, alistGet outs key = some v → vt target = false →
         bindingCall kind vt outs target key =
           .warning_set_failed kind target key) ∧
      (∀ target key v, alistGet outs key = some v → vt target = true →
         bindingCall kind vt outs target key = .set_variable (.str target) key v) := by
  intro kind vt outs data
  have hmain : ∀ d : List (String × List String),
      add_vars_loop kind vt outs d =
        d.flatMap (fun nk => nk.2.map (bindingCall kind vt outs nk.1)) := by
    intro d
    unfold add_vars_loop
    simpa using foldl_add_vars kind vt outs d []
  refine ⟨hmain data, ?_, ?_, ?_, ?_⟩
  · intro d1 d2
    rw [hmain, hmain, hmain, List.flatMap_append]
  · intro target key h
    unfold bindingCall
    rw [h]
  · intro target key v h hv
    unfold bindingCall
    rw [h, hv]
    rfl
  · intro target key v h hv
    unfold bindingCall
    rw [h, hv]
    rfl

/-- Witness for `tfstate_C9_bindings`: over one resolved and one missing
key, the loop emits one set-variable call and one warning, both bindings
processed. -/
theorem tfstate_C9_bindings_witness :
    add_vars_loop GROUP_KIND (fun _ => true) [("k1", .str "v1")]
        [("g1", ["k1", "missing"])] =
      [.set_variable (.str "g1") "k1" (.str "v1"),
       .warning_missing_output GROUP_KIND "missing" "g1"] ∧
    bindingCall GROUP_KIND (fun _ => true) [("k1", .str "v1")] "g1" "missing" =
      .warning_missing_output GROUP_KIND "missing" "g1" := by
  constructor
  · rw [(tfstate_C9_bindings GROUP_KIND (fun _ => true) [("k1", .str "v1")]
      [("g1", ["k1", "missing"])]).1]
    rfl
  · exact (tfstate_C9_bindings GROUP_KIND (fun _ => true) [("k1", .str "v1")]
      [("g1", ["k1", "missing"])]).2.2.1 "g1" "missing" rfl

/-! ## Claim C10 — libvirt host name from the first interface -/

theorem lvBody_eq (inst attrs : Value) (nis : List Value)
    (h1 : pyGetItem inst "attributes" = .ok attrs)
    (h2 : pyGetItem attrs "network_interface" = .ok (.list nis)) :
    lvBody inst = (do
      let ni0 ← pyIndex (.list nis) 0
      let name ← pyGetItem ni0 "hostname"
      let ifaces ← pyIterList (.list nis)
      let (ip, nat) ← lvInterfacesLoop ifaces none none
      .ok { name := name, ip_address := ip, nat_ip_address := nat }) := by
  unfold lvBody
  rw [h1, ok_bind, h2, ok_bind]

/-- C10: for the libvirt provider, the host name is
`network_interface[0]['hostname']`.  With an empty interface list the
`[0]` raises `IndexError`; with a first interface lacking `hostname` the
lookup raises `KeyError`; both are caught and the instance yields `None`
— no partially populated host.  Conversely, whenever a host is produced,
its name is exactly the first interface's `hostname` value. -/
theorem tfstate_C10_lv_name :
    ∀ (inst attrs : Value) (nis : List Value),
      pyGetItem inst "attributes" = .ok attrs →
      pyGetItem attrs "network_interface" = .ok (.list nis) →
      ((nis = [] → parse_lv_host inst = .ok none) ∧
       (∀ ni0 rest, nis = ni0 :: rest →
          pyGetItem ni0 "hostname" = .error .keyError →
          parse_lv_host inst = .ok none) ∧
       (∀ h, parse_lv_host inst = .ok (some h) →
          ∃ ni0 rest, nis = ni0 :: rest ∧
            pyGetItem ni0 "hostname" = .ok h.name)) := by
  intro inst attrs nis h1 h2
  have hb := lvBody_eq inst attrs nis h1 h2
  refine ⟨?_, ?_, ?_⟩
  · intro hnil
    subst hnil
    have hbody : lvBody inst = .error .indexError := by
      rw [hb]
      rfl
    simp [parse_lv_host, hbody]
  · intro ni0 rest hcons hname
    subst hcons
    have hidx : pyIndex (.list (ni0 :: rest)) 0 = .ok ni0 := rfl
    have hbody : lvBody inst = .error .keyError := by
      rw [hb, hidx, ok_bind, hname, error_bind]
    simp [parse_lv_host, hbody]
  · intro h hsome
    cases nis with
    | nil =>
        have hbody : lvBody inst = .error .indexError := by
          rw [hb]
          rfl
        simp [parse_lv_host, hbody] at hsome
    | cons ni0 rest =>
        have hidx : pyIndex (.list (ni0 :: rest)) 0 = .ok ni0 := rfl
        cases hname : pyGetItem ni0 "hostname" with
        | error e =>
            have hbody : lvBody inst = .error e := by
              rw [hb, hidx, ok_bind, hname, error_bind]
            cases e <;> simp [parse_lv_host, hbody] at hsome
        | ok name =>
            have hbody : lvBody inst =
                (lvInterfacesLoop (ni0 :: rest) none none >>= fun pr =>
                  .ok { name := name, ip_address := pr.1,
                        nat_ip_address := pr.2 }) := by
              rw [hb, hidx, ok_bind, hname, ok_bind]
              rfl
            cases hloop : lvInterfacesLoop (ni0 :: rest) none none with
            | error e =>
                rw [hloop, error_bind] at hbody
                cases e <;> simp [parse_lv_host, hbody] at hsome
            | ok pr =>
                rw [hloop, ok_bind] at hbody
                rw [parse_lv_host, hbody] at hsome
                have hh : h = ⟨name, pr.1, pr.2⟩ := by
                  cases hsome
                  rfl
                exact ⟨ni0, rest, rfl, by rw [hh]; exact hname⟩

/-- Witness for `tfstate_C10_lv_name`: an instance with an empty
interface list yields no host. -/
theorem tfstate_C10_lv_name_witness :
    parse_lv_host
        (Value.obj [("attributes",
          .obj [("network_interface", .list [])])]) = .ok none :=
  (tfstate_C10_lv_name
      (Value.obj [("attributes", .obj [("network_interface", .list [])])])
      (.obj [("network_interface", .list [])]) [] rfl rfl).1 rfl

end Tfstate
